import Mathlib

/-!
Shallow embedding of the Zoro command-orchestration engine.

Money amounts (USDC) are modelled as rationals; machine floats in the source
only ever carry small decimal fractions here. External capabilities that the
source delegates to collaborators (SHA-256 from node crypto, `Date.parse`,
`Date.toISOString`, JS number rendering, signature recovery, the HTTP
transport, the submission and decryption authorities) are passed in as
explicit function arguments, so every definition stays executable and every
theorem quantifies over them.
-/

namespace Zoro

/-- JS truthiness of an optional number: `undefined` and `0` are falsy
(`NaN` does not arise for rationals). -/
def jsTruthyQ (x : Option ℚ) : Bool :=
  match x with
  | none => false
  | some v => v != 0

/-- JS `String.prototype.toLowerCase`, modelled per character over the
underlying character list (ASCII addresses are all that reach it). -/
def jsToLower (s : String) : String :=
  ⟨s.data.map Char.toLower⟩

/-- JS truthiness of an optional string: `undefined` and the empty string are
falsy. -/
def jsTruthyStr (s : Option String) : Bool :=
  match s with
  | none => false
  | some v => v != ""

/-- Command lifecycle status (src/src/types/domain.ts). -/
inductive CommandStatus
  | NEW
  | INTENT_CREATED
  | AWAITING_APPROVAL
  | APPROVED
  | EXECUTING
  | DONE
  | ABORTED
  | FAILED
deriving DecidableEq

/-- The closed union of parsed command variants (src/src/types/domain.ts).
Optional numeric fields of `PAY_VENDOR` are `Option ℚ`. -/
inductive ParsedCommand
  | payVendor (vendor : String) (amountUsdc : ℚ) (toAddr : String)
      (dataBudgetUsdc : Option ℚ) (maxTotalUsdc : Option ℚ)
  | privatePayout (amountUsdc : ℚ) (toAddr : String) (unlockAt : String)
  | treasurySwap (amountUsdc : ℚ) (toToken : String) (slippageBps : ℚ)
      (maxSpendUsdc : ℚ)
  | recurringPay (vendor : String) (amountUsdc : ℚ) (toAddr : String)
      (frequency : String)
deriving DecidableEq

/-- The `kind` discriminator string of a parsed command. -/
def kindName : ParsedCommand → String
  | .payVendor .. => "PAY_VENDOR"
  | .privatePayout .. => "PRIVATE_PAYOUT"
  | .treasurySwap .. => "TREASURY_SWAP"
  | .recurringPay .. => "RECURRING_PAY"

/-- The principal amount of a command (`amountUsdc` on every variant). -/
def commandAmountUsdc : ParsedCommand → ℚ
  | .payVendor _ a _ _ _ => a
  | .privatePayout a _ _ => a
  | .treasurySwap a _ _ _ => a
  | .recurringPay _ a _ _ => a

/-- One planned paid tool call (src/src/types/domain.ts `ToolPlanItem`). -/
structure ToolPlanItem where
  toolName : String
  endpoint : String
  priceUsdc : ℚ
  reason : String
deriving DecidableEq

/-- The configuration fields the orchestration core reads, with the defaults
declared in src/src/config.ts. -/
structure AppConfig where
  X402_MAX_PER_CMD_USDC : ℚ
  X402_DAILY_LIMIT_USDC : ℚ
  X402_REQUIRE_APPROVAL_ABOVE_USDC : ℚ
  AUTO_RUN_UNDER_USDC : ℚ
  x402ToolAllowlist : List String
deriving DecidableEq

/-- The config produced by `getConfig` on an empty environment: every field at
its schema default (src/src/config.ts). -/
def defaultConfig : AppConfig :=
  { X402_MAX_PER_CMD_USDC := 2
    X402_DAILY_LIMIT_USDC := 20
    X402_REQUIRE_APPROVAL_ABOVE_USDC := 1/10
    AUTO_RUN_UNDER_USDC := 5
    x402ToolAllowlist := ["vendor-risk", "compliance-check", "price-check"] }

/-- Policy reason codes emitted by `evaluatePolicy` (src engine/policy.ts). -/
inductive ReasonCode
  | OK
  | TOOL_NOT_ALLOWLISTED
  | OVER_CMD_BUDGET
  | SPEND_LIMIT_REACHED
  | DAILY_LIMIT_REACHED
  | SLIPPAGE_TOO_HIGH
  | MAX_SPEND_EXCEEDED
  | INVALID_UNLOCK_TIME
deriving DecidableEq

/-- Decision record returned by the policy engine. The human-readable message
strings keep their fixed parts; numeric interpolation from the source is
omitted because no claim depends on it. -/
structure PolicyDecision where
  allowed : Bool
  reasonCode : ReasonCode
  message : String
deriving DecidableEq

/-- Input record of `evaluatePolicy` (src engine/policy.ts `PolicyContext`). -/
structure PolicyContext where
  command : ParsedCommand
  estimatedToolCostUsdc : ℚ
  commandSpendUsdc : ℚ
  dailySpendUsdc : ℚ
  selectedTools : List ToolPlanItem
deriving DecidableEq

/-- Effective per-command ceiling computed at the top of `evaluatePolicy`:
`context.command.kind === "PAY_VENDOR" && context.command.maxTotalUsdc ?
context.command.maxTotalUsdc : config.X402_MAX_PER_CMD_USDC`. JS truthiness
makes a declared `maxTotalUsdc` of 0 fall through to the global default. -/
def perCmdLimit (config : AppConfig) (command : ParsedCommand) : ℚ :=
  match command with
  | .payVendor _ _ _ _ m =>
    if jsTruthyQ m then m.getD config.X402_MAX_PER_CMD_USDC
    else config.X402_MAX_PER_CMD_USDC
  | _ => config.X402_MAX_PER_CMD_USDC

/-- Variant-specific tail rules of `evaluatePolicy`: swap slippage and
max-spend, and the timed-payout unlock check. `dateParse` stands for
`Date.parse` (none encodes NaN) and `now` for `Date.now()`. -/
def variantChecks (command : ParsedCommand)
    (dateParse : String → Option Int) (now : Int) : PolicyDecision :=
  match command with
  | .treasurySwap amountUsdc _ slippageBps maxSpendUsdc =>
    if slippageBps > 100 then
      { allowed := false, reasonCode := .SLIPPAGE_TOO_HIGH
        message := "Slippage above maximum allowed threshold" }
    else if amountUsdc > maxSpendUsdc then
      { allowed := false, reasonCode := .MAX_SPEND_EXCEEDED
        message := "Requested swap amount exceeds MAX_SPEND" }
    else
      { allowed := true, reasonCode := .OK, message := "Policy checks passed" }
  | .privatePayout _ _ unlockAt =>
    match dateParse unlockAt with
    | none =>
      { allowed := false, reasonCode := .INVALID_UNLOCK_TIME
        message := "Unlock time must be a valid future UTC timestamp" }
    | some unlockTimeMs =>
      if unlockTimeMs ≤ now then
        { allowed := false, reasonCode := .INVALID_UNLOCK_TIME
          message := "Unlock time must be a valid future UTC timestamp" }
      else
        { allowed := true, reasonCode := .OK, message := "Policy checks passed" }
  | _ => { allowed := true, reasonCode := .OK, message := "Policy checks passed" }

/-- Pure policy decision function (src engine/policy.ts `evaluatePolicy`):
allowlist, per-command estimate, per-command cumulative spend, daily spend,
then the variant-specific rules; first failing rule wins. -/
def evaluatePolicy (config : AppConfig) (context : PolicyContext)
    (dateParse : String → Option Int) (now : Int) : PolicyDecision :=
  if context.selectedTools.any
      (fun tool => !(config.x402ToolAllowlist.contains tool.toolName)) then
    { allowed := false, reasonCode := .TOOL_NOT_ALLOWLISTED
      message := "One or more tools are not in the allowlist" }
  else if context.estimatedToolCostUsdc > perCmdLimit config context.command then
    { allowed := false, reasonCode := .OVER_CMD_BUDGET
      message := "Estimated tool cost exceeds per-command limit" }
  else if context.commandSpendUsdc + context.estimatedToolCostUsdc
      > perCmdLimit config context.command then
    { allowed := false, reasonCode := .SPEND_LIMIT_REACHED
      message := "Command spend cap reached" }
  else if context.dailySpendUsdc + context.estimatedToolCostUsdc
      > config.X402_DAILY_LIMIT_USDC then
    { allowed := false, reasonCode := .DAILY_LIMIT_REACHED
      message := "Daily spend limit reached" }
  else
    variantChecks context.command dateParse now

/-- Approval gate (src engine/policy.ts `requiresApproval`): the principal
amount must exceed the larger of the auto-run ceiling and the approval
threshold. -/
def requiresApproval (config : AppConfig) (command : ParsedCommand) : Bool :=
  let threshold :=
    max config.AUTO_RUN_UNDER_USDC config.X402_REQUIRE_APPROVAL_ABOVE_USDC
  decide (commandAmountUsdc command > threshold)

/-- Static rule-based tool plan (src engine/policy.ts `chooseToolPlan`). -/
def chooseToolPlan (command : ParsedCommand) : List ToolPlanItem :=
  match command with
  | .payVendor _ amountUsdc _ _ _ =>
    [{ toolName := "vendor-risk", endpoint := "/tools/vendor-risk"
       priceUsdc := 1/4
       reason := if amountUsdc ≥ 250 then "Deep risk check for payout"
                 else "Standard risk check for payout" },
     { toolName := "compliance-check", endpoint := "/tools/compliance-check"
       priceUsdc := 1/2
       reason := "Compliance screening required for payouts" }]
  | _ => []

/-- Content-hash identifier (src/src/utils/hash.ts `shortId`): tag, an
underscore, and the first 16 hex characters of the SHA-256 of the input.
The SHA-256 primitive comes from node crypto and is passed in. -/
def shortId (sha256Hex : String → String) (tag : String) (input : String) :
    String :=
  tag ++ "_" ++ (sha256Hex input).take 16

/-- Deterministic canonical rendering of a parsed command
(src/src/commands.ts `buildCanonicalCommand`): fixed field order, fixed
keywords, space separated. `numToString` stands for the JS
`Number.prototype.toString` rendering. -/
def buildCanonicalCommand (numToString : ℚ → String) :
    ParsedCommand → String
  | .payVendor vendor amountUsdc toAddr dataBudgetUsdc maxTotalUsdc =>
    let parts := ["DW", "PAY_VENDOR", vendor, numToString amountUsdc,
      "USDC", "TO", toAddr]
    let parts := match dataBudgetUsdc with
      | some dataBudget => parts ++ ["DATA_BUDGET", numToString dataBudget]
      | none => parts
    let parts := match maxTotalUsdc with
      | some maxTotal => parts ++ ["MAX_TOTAL", numToString maxTotal]
      | none => parts
    String.intercalate " " parts
  | .treasurySwap amountUsdc toToken slippageBps maxSpendUsdc =>
    String.intercalate " " ["DW", "TREASURY_SWAP", numToString amountUsdc,
      "USDC", "TO", toToken, "SLIPPAGE", numToString slippageBps,
      "MAX_SPEND", numToString maxSpendUsdc]
  | .privatePayout amountUsdc toAddr unlockAt =>
    String.intercalate " " ["DW", "PRIVATE_PAYOUT", numToString amountUsdc,
      "USDC", "TO", toAddr, "AT", unlockAt]
  | .recurringPay vendor amountUsdc toAddr frequency =>
    String.intercalate " " ["RECURRING", "PAY", vendor,
      numToString amountUsdc, "USDC", "TO", toAddr, "EVERY",
      frequency.toUpper]

/-- Content-addressed command id (src/src/commands.ts
`buildCmdIdFromParsed`): `shortId` of the lower-cased canonical form. -/
def buildCmdIdFromParsed (sha256Hex : String → String)
    (numToString : ℚ → String) (parsed : ParsedCommand) : String :=
  shortId sha256Hex "cmd" (buildCanonicalCommand numToString parsed).toLower

/-- Intent mandate (src/src/ap2/ap2.ts `buildIntentMandate`).
`serializeCommand` stands for `JSON.stringify` and `nowIsoStr` for the
`nowIso()` wall-clock string taken at build time. -/
structure AP2IntentMandate where
  id : String
  docId : String
  cmdId : String
  action : String
  maxTotalUsdc : ℚ
  toolPlan : List ToolPlanItem
  createdAt : String
deriving DecidableEq

def buildIntentMandate (sha256Hex : String → String)
    (serializeCommand : ParsedCommand → String) (nowIsoStr : String)
    (docId cmdId : String) (command : ParsedCommand)
    (toolPlan : List ToolPlanItem) (maxTotalUsdc : ℚ) : AP2IntentMandate :=
  { id := shortId sha256Hex "intent"
      (docId ++ ":" ++ cmdId ++ ":" ++ serializeCommand command)
    docId := docId
    cmdId := cmdId
    action := kindName command
    maxTotalUsdc := maxTotalUsdc
    toolPlan := toolPlan
    createdAt := nowIsoStr }

/-- The EIP-712 message of a cart mandate (src/src/ap2/ap2.ts). The fixed
domain and type table are constants and omitted; only the message payload
varies. -/
structure CartMessage where
  intentId : String
  docId : String
  cmdId : String
  maxTotalUsdc : String
  toolDigest : String
  expiresAt : String
deriving DecidableEq

/-- Cart mandate (src/src/ap2/ap2.ts `AP2CartMandate`), with `typedData`
collapsed to its message payload. -/
structure AP2CartMandate where
  id : String
  intentId : String
  docId : String
  cmdId : String
  message : CartMessage
  expiresAt : String
  createdAt : String
deriving DecidableEq

/-- Cart construction (src/src/ap2/ap2.ts `buildCartMandate`): tool digest is
`toolName:priceUsdc` pairs joined by a bar; `expiresAt` is the intent
creation time plus five minutes when `Date.parse` succeeds on
`intent.createdAt`, and only falls back to the wall clock (`now`) when it
does not. `isoOfMs` stands for `new Date(ms).toISOString()` and
`toFixed2` for the `Number.prototype.toFixed(2)` rendering. -/
def buildCartMandate (sha256Hex : String → String)
    (dateParse : String → Option Int) (isoOfMs : Int → String)
    (numToString toFixed2 : ℚ → String) (now : Int)
    (intent : AP2IntentMandate) : AP2CartMandate :=
  let toolDigest := String.intercalate "|"
    (intent.toolPlan.map
      (fun tool => tool.toolName ++ ":" ++ numToString tool.priceUsdc))
  let expiresAt := match dateParse intent.createdAt with
    | none => isoOfMs (now + 5 * 60 * 1000)
    | some intentCreatedAtMs => isoOfMs (intentCreatedAtMs + 5 * 60 * 1000)
  { id := shortId sha256Hex "cart" (intent.id ++ ":" ++ toolDigest)
    intentId := intent.id
    docId := intent.docId
    cmdId := intent.cmdId
    message :=
      { intentId := intent.id
        docId := intent.docId
        cmdId := intent.cmdId
        maxTotalUsdc := toFixed2 intent.maxTotalUsdc
        toolDigest := toolDigest
        expiresAt := expiresAt }
    expiresAt := expiresAt
    createdAt := isoOfMs now }

/-- Result of signature verification (src/src/ap2/ap2.ts
`verifyAuthorizationSignature`). -/
structure VerifyResult where
  valid : Bool
  signerAddress : Option String
deriving DecidableEq

/-- Signature verification (src/src/ap2/ap2.ts
`verifyAuthorizationSignature`): recover the signer from the structured
message and signature (the ECDSA recovery of viem is the passed-in
`recoverTypedDataAddress`); when the optional `expectedSigner` is truthy and
the recovered address differs case-insensitively, verification fails;
otherwise it succeeds with the recovered address. -/
def verifyAuthorizationSignature
    (recoverTypedDataAddress : CartMessage → String → String)
    (mandate : AP2CartMandate) (signature : String)
    (expectedSigner : Option String) : VerifyResult :=
  let signerAddress := recoverTypedDataAddress mandate.message signature
  if jsTruthyStr expectedSigner
      && jsToLower signerAddress != jsToLower (expectedSigner.getD "") then
    { valid := false, signerAddress := some signerAddress }
  else
    { valid := true, signerAddress := some signerAddress }

/-- Errors a budgeted x402 call can surface (src x402-client.ts): the
deterministic budget-exceeded rejection thrown inside the payment-required
callback, or any transport / upstream failure. -/
inductive X402Err
  | budgetExceeded
  | transportError
deriving DecidableEq

/-- What a completed (non-throwing) attempt records: whether a payment
challenge was answered (and therefore a payment artifact constructed), and
the realized cost. -/
structure X402AttemptSuccess where
  paymentAttempted : Bool
  paymentConstructed : Bool
  costUsdc : ℚ
deriving DecidableEq

/-- One attempt of the budgeted call (src x402-client.ts
`x402FetchAttempt`). `challenge` is the quoted price of a payment-required
challenge (`none` when the endpoint answers without one), `transportOk`
whether the transport layer survives. On a challenge the required cost is
the pre-agreed expected price when given, else the quoted price; if it
exceeds the budget the attempt throws budget-exceeded before any payment
artifact is constructed. -/
def x402FetchAttempt (expectedPriceUsdc : Option ℚ) (budgetUsdc : ℚ)
    (challenge : Option ℚ) (transportOk : Bool) :
    Except X402Err X402AttemptSuccess :=
  if !transportOk then .error .transportError
  else
    match challenge with
    | none => .ok { paymentAttempted := false, paymentConstructed := false
                    costUsdc := 0 }
    | some quoted =>
      let requiredCostUsdc := expectedPriceUsdc.getD quoted
      if requiredCostUsdc > budgetUsdc then .error .budgetExceeded
      else .ok { paymentAttempted := true, paymentConstructed := true
                 costUsdc := requiredCostUsdc }

/-- The outer retry loop of `x402Fetch` (src x402-client.ts): up to
`maxRetries = 3` attempts with backoff, every caught error retried, the
last error rethrown. `attemptOf n` is the outcome of attempt `n`; the
returned number counts the attempts actually made. -/
def x402Fetch (attemptOf : Nat → Except X402Err X402AttemptSuccess) :
    Except X402Err X402AttemptSuccess × Nat :=
  match attemptOf 1 with
  | .ok r => (.ok r, 1)
  | .error _ =>
    match attemptOf 2 with
    | .ok r => (.ok r, 2)
    | .error _ =>
      match attemptOf 3 with
      | .ok r => (.ok r, 3)
      | .error e => (.error e, 3)

/-- Execution-time budget cap of `executePayVendor` (orchestrator.ts line
356): `parsed.maxTotalUsdc ?? this.config.X402_MAX_PER_CMD_USDC` — nullish
coalescing, so a declared 0 is kept, unlike the truthiness tests of the
policy engine and the ingestion path. -/
def execBudgetCap (config : AppConfig) (maxTotalUsdc : Option ℚ) : ℚ :=
  maxTotalUsdc.getD config.X402_MAX_PER_CMD_USDC

/-- Effective ceiling used when the intent mandate is built at ingestion
(orchestrator.ts line 103): the same truthiness pattern as the policy
engine, so a declared 0 falls through to the global default. -/
def ingestMaxTotal (config : AppConfig) (parsed : ParsedCommand) : ℚ :=
  match parsed with
  | .payVendor _ _ _ _ m =>
    if jsTruthyQ m then m.getD config.X402_MAX_PER_CMD_USDC
    else config.X402_MAX_PER_CMD_USDC
  | _ => config.X402_MAX_PER_CMD_USDC

/-- Net effect of one budgeted tool call as seen by the spend ledger: either
the whole `x402Fetch` (all three attempts) fails with a transport error, or
it completes, `challenged` recording whether a payment challenge was paid
and `httpOk` the final `response.ok`. A completed challenged call passed
the budget check, so its recorded cost is the expected price passed in by
the orchestrator (`tool.priceUsdc`); an unchallenged call records cost 0. -/
inductive X402Outcome
  | transportFail
  | completes (challenged : Bool) (httpOk : Bool)
deriving DecidableEq

/-- The sequential planned-tool loop of `executePayVendor` (orchestrator.ts
lines 436–498), reduced to its spend-ledger writes. Each planned call
carries its expected price and its network outcome. A challenged call whose
price exceeds the remaining budget throws (budget exceeded) and ends the
loop with no ledger entry; a completed call appends its realized cost to
the ledger, the remaining budget is decremented by that cost, and a final
status that is not ok throws after the ledger write. -/
def payVendorToolLoop (remainingBudget : ℚ) :
    List (ℚ × X402Outcome) → List ℚ
  | [] => []
  | (priceUsdc, outcome) :: rest =>
    match outcome with
    | .transportFail => []
    | .completes challenged httpOk =>
      if challenged then
        if priceUsdc > remainingBudget then []
        else if httpOk then
          priceUsdc :: payVendorToolLoop (remainingBudget - priceUsdc) rest
        else [priceUsdc]
      else if httpOk then 0 :: payVendorToolLoop (remainingBudget - 0) rest
      else [0]

/-- The reflection-driven chained-tool loop of `executePayVendor`
(orchestrator.ts lines 524–557), reduced to its spend-ledger writes: a tool
not in the allowlist is skipped, a failed call is caught and skipped, a
completed call appends its cost and decrements the remaining budget; the
loop never aborts and does not inspect the final status. -/
def chainedToolLoop (remainingBudget : ℚ) :
    List (Bool × ℚ × X402Outcome) → List ℚ
  | [] => []
  | (allowlisted, priceUsdc, outcome) :: rest =>
    if !allowlisted then chainedToolLoop remainingBudget rest
    else
      match outcome with
      | .transportFail => chainedToolLoop remainingBudget rest
      | .completes challenged _ =>
        if challenged then
          if priceUsdc > remainingBudget then chainedToolLoop remainingBudget rest
          else priceUsdc :: chainedToolLoop (remainingBudget - priceUsdc) rest
        else 0 :: chainedToolLoop (remainingBudget - 0) rest

/-- Stored command row (the `commands` table of src/src/db/repo.ts, without
the timestamp columns, which no claim reads). -/
structure StoredCommand where
  rawCmd : String
  parsed : ParsedCommand
  status : CommandStatus
  lastError : Option String
deriving DecidableEq

/-- Append-only receipt row (src/src/db/repo.ts `ap2_receipts`), with the
JSON payload collapsed to its reason-code / event field. -/
structure ReceiptRec where
  id : String
  docId : String
  cmdId : String
  kind : String
  payloadReason : String
deriving DecidableEq

/-- The durable store touched by ingestion and abort paths: commands keyed by
`(docId, cmdId)`, intents keyed the same way together with their status,
append-only receipts, and the audit lines appended to the doc. -/
structure RepoState where
  commands : List ((String × String) × StoredCommand)
  intents : List ((String × String) × (AP2IntentMandate × String))
  receipts : List ReceiptRec
  auditLines : List String
deriving DecidableEq

/-- Key lookup in an association list (the primary-key SELECT). -/
def findEntry {α : Type} (key : String × String) :
    List ((String × String) × α) → Option α
  | [] => none
  | (k, v) :: rest => if k = key then some v else findEntry key rest

/-- `Repo.getCommand`. -/
def getCommand (st : RepoState) (docId cmdId : String) :
    Option StoredCommand :=
  findEntry (docId, cmdId) st.commands

/-- `Repo.updateCommandStatus` (repo.ts lines 52–56): an unconditional SQL
UPDATE of the status and lastError of the addressed row — there is no guard
on the current status. -/
def updateCommandStatus (st : RepoState) (docId cmdId : String)
    (status : CommandStatus) (lastError : Option String) : RepoState :=
  { st with commands := st.commands.map (fun entry =>
      if entry.1 = (docId, cmdId) then
        (entry.1, { entry.2 with status := status, lastError := lastError })
      else entry) }

/-- `Repo.upsertCommand`: insert-or-replace by primary key. -/
def upsertCommand (st : RepoState) (docId cmdId rawCmd : String)
    (parsed : ParsedCommand) (status : CommandStatus) : RepoState :=
  { st with commands :=
      st.commands.filter (fun entry => entry.1 ≠ (docId, cmdId))
        ++ [((docId, cmdId), { rawCmd := rawCmd, parsed := parsed
                               status := status, lastError := none })] }

/-- `Repo.saveAp2Intent`: insert-or-replace by primary key. -/
def saveAp2Intent (st : RepoState) (docId cmdId : String)
    (intent : AP2IntentMandate) (status : String) : RepoState :=
  { st with intents :=
      st.intents.filter (fun entry => entry.1 ≠ (docId, cmdId))
        ++ [((docId, cmdId), (intent, status))] }

/-- `Repo.addAp2Receipt`: append-only insert. -/
def addAp2Receipt (st : RepoState) (receipt : ReceiptRec) : RepoState :=
  { st with receipts := st.receipts ++ [receipt] }

/-- `GoogleDocService.appendAuditLine`, reduced to the line buffer. -/
def appendAuditLine (st : RepoState) (line : String) : RepoState :=
  { st with auditLines := st.auditLines ++ [line] }

/-- `Orchestrator.simulateAbort` (orchestrator.ts lines 277–288): set the
status to ABORTED with the reason as lastError, append an ABORT receipt and
an audit line — with no check of the current status. -/
def simulateAbort (st : RepoState) (docId cmdId reason : String) : RepoState :=
  let st1 := updateCommandStatus st docId cmdId .ABORTED (some reason)
  let st2 := addAp2Receipt st1
    { id := "receipt_" ++ cmdId ++ "_abort", docId := docId, cmdId := cmdId
      kind := "ABORT", payloadReason := reason }
  appendAuditLine st2 ("ZORO " ++ cmdId ++ " ABORTED reason=" ++ reason)

/-- External primitives the ingestion path consumes. -/
structure IngestDeps where
  sha256Hex : String → String
  numToString : ℚ → String
  serializeCommand : ParsedCommand → String
  nowIsoStr : String

/-- Ingestion of one successfully parsed command line
(orchestrator.ts `ingestDocCommands` lines 89–129): compute the content
hash id; if a command with that id already exists in the scope, do nothing;
otherwise persist the NEW command, build and save the intent mandate,
advance to INTENT_CREATED and then to AWAITING_APPROVAL or APPROVED
according to `requiresApproval`, appending one audit line. The audit line
keeps its fixed prefix; numeric interpolation is omitted. -/
def ingestParsedLine (config : AppConfig) (deps : IngestDeps)
    (docId raw : String) (parsed : ParsedCommand) (st : RepoState) :
    RepoState :=
  let cmdId := buildCmdIdFromParsed deps.sha256Hex deps.numToString parsed
  match getCommand st docId cmdId with
  | some _ => st
  | none =>
    let st := upsertCommand st docId cmdId raw parsed .NEW
    let tools := chooseToolPlan parsed
    let maxTotal := ingestMaxTotal config parsed
    let intent := buildIntentMandate deps.sha256Hex deps.serializeCommand
      deps.nowIsoStr docId cmdId parsed tools maxTotal
    let st := saveAp2Intent st docId cmdId intent "PENDING"
    let st := updateCommandStatus st docId cmdId .INTENT_CREATED none
    if requiresApproval config parsed then
      let st := updateCommandStatus st docId cmdId .AWAITING_APPROVAL none
      appendAuditLine st
        ("ZORO " ++ cmdId ++ " AWAITING_APPROVAL action=" ++ kindName parsed)
    else
      let st := updateCommandStatus st docId cmdId .APPROVED none
      appendAuditLine st
        ("ZORO " ++ cmdId ++ " AUTO_APPROVED action=" ++ kindName parsed)

/-- Encrypted-job status (src/src/types/domain.ts). -/
inductive EncryptedJobStatus
  | PENDING
  | READY
  | SUBMITTED
  | DECRYPTED
  | FAILED
deriving DecidableEq

/-- One encrypted job as the queue sees it: status, the unlock timestamp
string of its condition, and the optional transaction reference and
decrypted payload. -/
structure EncryptedJobState where
  status : EncryptedJobStatus
  unlockAt : String
  txHash : Option String
  decryptedJson : Option String
deriving DecidableEq

/-- Result of `BiteService.processJob` (part of the BITE service): nothing
before the unlock time; a submission (returning the new reference) when no
reference is recorded yet; otherwise the decrypted payload for the recorded
reference. `submitTxHash` and `decryptedData` are the values returned by the
external submission and decryption capabilities. -/
structure ProcessEncryptedResult where
  submitted : Bool
  txHash : Option String
  decrypted : Option String
deriving DecidableEq

def processJob (dateParse : String → Option Int) (now : Int)
    (submitTxHash decryptedData : String) (job : EncryptedJobState) :
    ProcessEncryptedResult :=
  match dateParse job.unlockAt with
  | none => { submitted := false, txHash := none, decrypted := none }
  | some unlockMs =>
    if now < unlockMs then
      { submitted := false, txHash := none, decrypted := none }
    else if jsTruthyStr job.txHash then
      { submitted := true, txHash := job.txHash
        decrypted := some decryptedData }
    else
      { submitted := true, txHash := some submitTxHash, decrypted := none }

/-- One tick of the conditional settlement queue for one job
(orchestrator.ts `processEncryptedJobs` lines 227–274): run `processJob`;
if nothing was submitted, leave the job untouched; if a reference came back
without a decrypted payload, move to SUBMITTED recording the reference; if
a decrypted payload came back, move to DECRYPTED recording it. The returned
flag says whether a submission was attempted this tick. -/
def advanceEncryptedJob (dateParse : String → Option Int) (now : Int)
    (submitTxHash decryptedData : String) (job : EncryptedJobState) :
    EncryptedJobState × Bool :=
  let processed := processJob dateParse now submitTxHash decryptedData job
  let didSubmit := processed.submitted && !(jsTruthyStr job.txHash)
  if !processed.submitted then (job, false)
  else
    let job1 :=
      if jsTruthyStr processed.txHash && processed.decrypted.isNone then
        { job with status := .SUBMITTED, txHash := processed.txHash }
      else job
    let job2 :=
      if processed.decrypted.isSome then
        { job1 with status := .DECRYPTED, decryptedJson := processed.decrypted }
      else job1
    (job2, didSubmit)

/-! Theorems. -/

/-- Helper: the variant-specific tail either fails with a variant reason code
or returns the fixed ok decision; it returns reason code OK only as the full
ok decision. -/
theorem variantChecks_ok_iff (command : ParsedCommand)
    (dateParse : String → Option Int) (now : Int)
    (h : (variantChecks command dateParse now).reasonCode = .OK) :
    variantChecks command dateParse now =
      { allowed := true, reasonCode := .OK, message := "Policy checks passed" } := by
  cases command with
  | treasurySwap amountUsdc toToken slippageBps maxSpendUsdc =>
    by_cases h1 : slippageBps > 100
    · simp [variantChecks, h1] at h
    · by_cases h2 : amountUsdc > maxSpendUsdc
      · simp [variantChecks, h1, h2] at h
      · simp [variantChecks, h1, h2]
  | privatePayout amountUsdc toAddr unlockAt =>
    cases hp : dateParse unlockAt with
    | none => simp [variantChecks, hp] at h
    | some unlockTimeMs =>
      by_cases ht : unlockTimeMs ≤ now
      · simp [variantChecks, hp, ht] at h
      · simp [variantChecks, hp, ht]
  | payVendor vendor amountUsdc toAddr dataBudgetUsdc maxTotalUsdc =>
    simp [variantChecks]
  | recurringPay vendor amountUsdc toAddr frequency =>
    simp [variantChecks]

/-- C2: the code rejects a swap with reason code SLIPPAGE_TOO_HIGH already at
101 basis points: the ceiling enforced by `evaluatePolicy` is 100 bps, not
the 200 bps the specification states (and that the orchestrator itself
records as `policyMaxSlippage: 200` in its DEFI receipts). Scenario C
(slippage 250) is rejected as claimed, but a swap at 150 bps — at most 200,
so the claim says it passes the slippage rule — is also rejected. -/
theorem treasury_swap_slippage_ceiling_is_100_not_200 :
    (evaluatePolicy defaultConfig
        { command := .treasurySwap 25 "WETH" 250 30
          estimatedToolCostUsdc := 0, commandSpendUsdc := 0
          dailySpendUsdc := 0, selectedTools := [] }
        (fun _ => none) 0).reasonCode = .SLIPPAGE_TOO_HIGH
    ∧ (evaluatePolicy defaultConfig
        { command := .treasurySwap 25 "WETH" 150 30
          estimatedToolCostUsdc := 0, commandSpendUsdc := 0
          dailySpendUsdc := 0, selectedTools := [] }
        (fun _ => none) 0).reasonCode = .SLIPPAGE_TOO_HIGH
    ∧ (150 : ℚ) ≤ 200 := by
  refine ⟨?_, ?_, by norm_num⟩ <;>
    norm_num [evaluatePolicy, variantChecks, perCmdLimit, defaultConfig]

/-- C4: `evaluatePolicy` applies its rules in the fixed order — tool
allowlist, estimated cost against the effective per-command ceiling,
cumulative command spend against the same ceiling, daily spend against the
global daily ceiling, then the variant-specific rules — and the first
failing rule determines the reason code; when every rule passes the
decision is allowed with reason code OK. -/
theorem evaluatePolicy_first_failing_rule_wins (config : AppConfig)
    (context : PolicyContext) (dateParse : String → Option Int) (now : Int) :
    (context.selectedTools.any
        (fun tool => !(config.x402ToolAllowlist.contains tool.toolName)) = true →
      evaluatePolicy config context dateParse now =
        { allowed := false, reasonCode := .TOOL_NOT_ALLOWLISTED
          message := "One or more tools are not in the allowlist" })
  ∧ (context.selectedTools.any
        (fun tool => !(config.x402ToolAllowlist.contains tool.toolName)) = false →
      context.estimatedToolCostUsdc > perCmdLimit config context.command →
      evaluatePolicy config context dateParse now =
        { allowed := false, reasonCode := .OVER_CMD_BUDGET
          message := "Estimated tool cost exceeds per-command limit" })
  ∧ (context.selectedTools.any
        (fun tool => !(config.x402ToolAllowlist.contains tool.toolName)) = false →
      context.estimatedToolCostUsdc ≤ perCmdLimit config context.command →
      context.commandSpendUsdc + context.estimatedToolCostUsdc
          > perCmdLimit config context.command →
      evaluatePolicy config context dateParse now =
        { allowed := false, reasonCode := .SPEND_LIMIT_REACHED
          message := "Command spend cap reached" })
  ∧ (context.selectedTools.any
        (fun tool => !(config.x402ToolAllowlist.contains tool.toolName)) = false →
      context.estimatedToolCostUsdc ≤ perCmdLimit config context.command →
      context.commandSpendUsdc + context.estimatedToolCostUsdc
          ≤ perCmdLimit config context.command →
      context.dailySpendUsdc + context.estimatedToolCostUsdc
          > config.X402_DAILY_LIMIT_USDC →
      evaluatePolicy config context dateParse now =
        { allowed := false, reasonCode := .DAILY_LIMIT_REACHED
          message := "Daily spend limit reached" })
  ∧ (context.selectedTools.any
        (fun tool => !(config.x402ToolAllowlist.contains tool.toolName)) = false →
      context.estimatedToolCostUsdc ≤ perCmdLimit config context.command →
      context.commandSpendUsdc + context.estimatedToolCostUsdc
          ≤ perCmdLimit config context.command →
      context.dailySpendUsdc + context.estimatedToolCostUsdc
          ≤ config.X402_DAILY_LIMIT_USDC →
      evaluatePolicy config context dateParse now
        = variantChecks context.command dateParse now
      ∧ ((variantChecks context.command dateParse now).reasonCode = .OK →
          evaluatePolicy config context dateParse now =
            { allowed := true, reasonCode := .OK
              message := "Policy checks passed" })) := by
  refine ⟨?_, ?_, ?_, ?_, ?_⟩
  · intro h1
    unfold evaluatePolicy
    rw [if_pos h1]
  · intro h1 h2
    unfold evaluatePolicy
    rw [if_neg (by rw [h1]; exact Bool.false_ne_true), if_pos h2]
  · intro h1 h2 h3
    unfold evaluatePolicy
    rw [if_neg (by rw [h1]; exact Bool.false_ne_true),
      if_neg (not_lt.mpr h2), if_pos h3]
  · intro h1 h2 h3 h4
    unfold evaluatePolicy
    rw [if_neg (by rw [h1]; exact Bool.false_ne_true),
      if_neg (not_lt.mpr h2), if_neg (not_lt.mpr h3), if_pos h4]
  · intro h1 h2 h3 h4
    have he : evaluatePolicy config context dateParse now
        = variantChecks context.command dateParse now := by
      unfold evaluatePolicy
      rw [if_neg (by rw [h1]; exact Bool.false_ne_true),
        if_neg (not_lt.mpr h2), if_neg (not_lt.mpr h3),
        if_neg (not_lt.mpr h4)]
    exact ⟨he, fun hok => he.trans (variantChecks_ok_iff _ _ _ hok)⟩

/-- C4 witness: Scenario B — a PAY_VENDOR with MAX_TOTAL 0.5 whose selected
tools cost 0.25 and 0.50 (estimated 0.75) is rejected with
OVER_CMD_BUDGET. -/
theorem evaluatePolicy_scenario_b_over_cmd_budget :
    evaluatePolicy defaultConfig
      { command := .payVendor "ACME" 200 "0xAAAA" none (some (1/2))
        estimatedToolCostUsdc := 3/4, commandSpendUsdc := 0
        dailySpendUsdc := 0
        selectedTools := chooseToolPlan
          (.payVendor "ACME" 200 "0xAAAA" none (some (1/2))) }
      (fun _ => none) 0 =
      { allowed := false, reasonCode := .OVER_CMD_BUDGET
        message := "Estimated tool cost exceeds per-command limit" } := by
  exact (evaluatePolicy_first_failing_rule_wins defaultConfig
    { command := .payVendor "ACME" 200 "0xAAAA" none (some (1/2))
      estimatedToolCostUsdc := 3/4, commandSpendUsdc := 0
      dailySpendUsdc := 0
      selectedTools := chooseToolPlan
        (.payVendor "ACME" 200 "0xAAAA" none (some (1/2))) }
    (fun _ => none) 0).2.1 (by decide) (by norm_num [perCmdLimit, jsTruthyQ, defaultConfig])

/-- C10 counterexample: for a declared per-command ceiling of 0, the
execution-time budget cap of `executePayVendor` (nullish coalescing,
orchestrator.ts line 356) keeps the 0 instead of the global default of 2,
and with that cap every challenged tool call (here the 0.25 vendor-risk
call) fails its budget check — so the orchestrator does not use the global
default as the effective ceiling, and tool spend is blocked. -/
theorem zero_ceiling_exec_cap_counterexample :
    execBudgetCap defaultConfig (some 0) = 0
    ∧ execBudgetCap defaultConfig (some 0)
        ≠ defaultConfig.X402_MAX_PER_CMD_USDC
    ∧ x402FetchAttempt (some (1/4)) (execBudgetCap defaultConfig (some 0))
        (some (1/4)) true = .error .budgetExceeded := by
  refine ⟨rfl, by norm_num [execBudgetCap, defaultConfig], ?_⟩
  norm_num [x402FetchAttempt, execBudgetCap]

/-- C10 amended: a declared `maxTotalUsdc` of 0 is treated as absent by the
policy engine (`perCmdLimit`) and by the ingestion path (`ingestMaxTotal`),
both of which fall back to the global default; but the execution-time
budget cap of `executePayVendor` uses nullish coalescing and keeps the
declared 0, so there the zero ceiling survives and blocks paid tool
calls. -/
theorem zero_ceiling_policy_uses_default_exec_keeps_zero (config : AppConfig)
    (vendor toAddr : String) (amountUsdc : ℚ) (dataBudgetUsdc : Option ℚ) :
    perCmdLimit config
        (.payVendor vendor amountUsdc toAddr dataBudgetUsdc (some 0))
      = config.X402_MAX_PER_CMD_USDC
    ∧ ingestMaxTotal config
        (.payVendor vendor amountUsdc toAddr dataBudgetUsdc (some 0))
      = config.X402_MAX_PER_CMD_USDC
    ∧ execBudgetCap config (some 0) = 0 := by
  refine ⟨?_, ?_, rfl⟩ <;> simp [perCmdLimit, ingestMaxTotal, jsTruthyQ]

/-- Helper: the ledger written by the sequential planned-tool loop sums to at
most the starting budget (or 0 if the budget starts negative): a challenged
call is paid only after its price passed the check against the remaining
budget, and the remaining budget is decremented by each recorded cost. -/
theorem payVendorToolLoop_sum_le (calls : List (ℚ × X402Outcome)) :
    ∀ remainingBudget : ℚ,
      (payVendorToolLoop remainingBudget calls).sum ≤ max remainingBudget 0 := by
  induction calls with
  | nil => intro r; simp [payVendorToolLoop, le_max_right]
  | cons call rest ih =>
    intro r
    obtain ⟨priceUsdc, outcome⟩ := call
    cases outcome with
    | transportFail => simp [payVendorToolLoop, le_max_right]
    | completes challenged httpOk =>
      cases challenged with
      | false =>
        cases httpOk with
        | true =>
          have h := ih (r - 0)
          simp only [payVendorToolLoop, List.sum_cons, sub_zero] at h ⊢
          simpa using h
        | false => simp [payVendorToolLoop, le_max_right]
      | true =>
        by_cases hp : priceUsdc > r
        · simp [payVendorToolLoop, hp, le_max_right]
        · push_neg at hp
          cases httpOk with
          | true =>
            have h := ih (r - priceUsdc)
            simp only [payVendorToolLoop, not_lt.mpr hp, if_neg (not_lt.mpr hp),
              if_pos, List.sum_cons, if_true]
            have hmax : max (r - priceUsdc) 0 = r - priceUsdc ∨
                max (r - priceUsdc) 0 = 0 := max_choice _ _
            have hr0 : priceUsdc + (payVendorToolLoop (r - priceUsdc) rest).sum
                ≤ max r 0 := by
              rcases hmax with hm | hm
              · have : priceUsdc + (payVendorToolLoop (r - priceUsdc) rest).sum
                    ≤ priceUsdc + (r - priceUsdc) := by
                  have := h; rw [hm] at this; linarith
                calc priceUsdc + (payVendorToolLoop (r - priceUsdc) rest).sum
                    ≤ r := by linarith
                  _ ≤ max r 0 := le_max_left _ _
              · have hle : (payVendorToolLoop (r - priceUsdc) rest).sum ≤ 0 := by
                  have := h; rw [hm] at this; exact this
                calc priceUsdc + (payVendorToolLoop (r - priceUsdc) rest).sum
                    ≤ priceUsdc + 0 := by linarith
                  _ = priceUsdc := by ring
                  _ ≤ r := hp
                  _ ≤ max r 0 := le_max_left _ _
            simpa using hr0
          | false =>
            have : priceUsdc ≤ r := hp
            simp only [payVendorToolLoop, if_neg (not_lt.mpr hp), if_pos]
            calc ([priceUsdc].sum : ℚ) = priceUsdc := by simp
              _ ≤ r := hp
              _ ≤ max r 0 := le_max_left _ _

/-- Helper: the same bound for the reflection-driven chained loop, whose
failures are caught and skipped instead of ending the loop. -/
theorem chainedToolLoop_sum_le (calls : List (Bool × ℚ × X402Outcome)) :
    ∀ remainingBudget : ℚ,
      (chainedToolLoop remainingBudget calls).sum ≤ max remainingBudget 0 := by
  induction calls with
  | nil => intro r; simp [chainedToolLoop, le_max_right]
  | cons call rest ih =>
    intro r
    obtain ⟨allowlisted, priceUsdc, outcome⟩ := call
    cases allowlisted with
    | false => simpa [chainedToolLoop] using ih r
    | true =>
      cases outcome with
      | transportFail => simpa [chainedToolLoop] using ih r
      | completes challenged httpOk =>
        cases challenged with
        | false =>
          have h := ih (r - 0)
          simp only [chainedToolLoop, List.sum_cons, sub_zero] at h ⊢
          simpa using h
        | true =>
          by_cases hp : priceUsdc > r
          · simpa [chainedToolLoop, hp] using ih r
          · push_neg at hp
            have h := ih (r - priceUsdc)
            simp only [chainedToolLoop, if_neg (not_lt.mpr hp), if_pos,
              List.sum_cons]
            have hr0 : priceUsdc + (chainedToolLoop (r - priceUsdc) rest).sum
                ≤ max r 0 := by
              rcases max_choice (r - priceUsdc) 0 with hm | hm
              · have : (chainedToolLoop (r - priceUsdc) rest).sum
                    ≤ r - priceUsdc := by
                  have := h; rw [hm] at this; exact this
                calc priceUsdc + (chainedToolLoop (r - priceUsdc) rest).sum
                    ≤ r := by linarith
                  _ ≤ max r 0 := le_max_left _ _
              · have hle : (chainedToolLoop (r - priceUsdc) rest).sum ≤ 0 := by
                  have := h; rw [hm] at this; exact this
                calc priceUsdc + (chainedToolLoop (r - priceUsdc) rest).sum
                    ≤ priceUsdc + 0 := by linarith
                  _ = priceUsdc := by ring
                  _ ≤ r := hp
                  _ ≤ max r 0 := le_max_left _ _
            simpa using hr0

/-- C1: in `executePayVendor` the spend-ledger entries recorded for a command
never sum to more than the effective per-command ceiling — the declared
`maxTotalUsdc` when present, else the global default — at any point during
execution: after any prefix of the sequential planned-tool calls, and after
any prefix of the chained calls that continue against the already
decremented budget. Each challenged call is checked against the remaining
budget before payment and the remaining budget is decremented by the
recorded cost afterwards. -/
theorem payVendor_ledger_within_ceiling (config : AppConfig)
    (maxTotalUsdc : Option ℚ)
    (hcap : 0 ≤ execBudgetCap config maxTotalUsdc)
    (mainCalls : List (ℚ × X402Outcome))
    (chainCalls : List (Bool × ℚ × X402Outcome)) :
    (∀ k : Nat,
      (payVendorToolLoop (execBudgetCap config maxTotalUsdc)
          (mainCalls.take k)).sum
        ≤ execBudgetCap config maxTotalUsdc)
    ∧ ∀ j : Nat,
      (payVendorToolLoop (execBudgetCap config maxTotalUsdc) mainCalls).sum
        + (chainedToolLoop
            (execBudgetCap config maxTotalUsdc
              - (payVendorToolLoop (execBudgetCap config maxTotalUsdc)
                  mainCalls).sum)
            (chainCalls.take j)).sum
        ≤ execBudgetCap config maxTotalUsdc := by
  have hmax : max (execBudgetCap config maxTotalUsdc) 0
      = execBudgetCap config maxTotalUsdc := max_eq_left hcap
  constructor
  · intro k
    have := payVendorToolLoop_sum_le (mainCalls.take k)
      (execBudgetCap config maxTotalUsdc)
    rwa [hmax] at this
  · intro j
    have hmain := payVendorToolLoop_sum_le mainCalls
      (execBudgetCap config maxTotalUsdc)
    rw [hmax] at hmain
    have hrem : 0 ≤ execBudgetCap config maxTotalUsdc
        - (payVendorToolLoop (execBudgetCap config maxTotalUsdc)
            mainCalls).sum := by linarith
    have hchain := chainedToolLoop_sum_le (chainCalls.take j)
      (execBudgetCap config maxTotalUsdc
        - (payVendorToolLoop (execBudgetCap config maxTotalUsdc)
            mainCalls).sum)
    rw [max_eq_left hrem] at hchain
    linarith

/-- C1 witness: with the default config, a declared ceiling of 2 and one
challenged 0.25 call that succeeds, the ledger prefix sums stay within the
ceiling. -/
theorem payVendor_ledger_within_ceiling_witness :
    (payVendorToolLoop (execBudgetCap defaultConfig (some 2))
        ([((1 : ℚ)/4, X402Outcome.completes true true)].take 1)).sum
      ≤ execBudgetCap defaultConfig (some 2) := by
  exact (payVendor_ledger_within_ceiling defaultConfig (some 2)
    (by norm_num [execBudgetCap])
    [((1 : ℚ)/4, X402Outcome.completes true true)] []).1 1

/-- C3 counterexample: a deterministic budget-exceeded failure IS retried by
the outer loop of `x402Fetch`: with every attempt rejecting for budget (a
challenge quoting 0.75 against a remaining budget of 0.5), the loop makes
all 3 attempts instead of the single attempt the claim requires, and only
then rethrows the budget-exceeded error. -/
theorem budget_exceeded_failure_is_retried :
    x402Fetch (fun _ => x402FetchAttempt (some (3/4)) (1/2) (some (3/4)) true)
      = (.error .budgetExceeded, 3)
    ∧ x402FetchAttempt (some (3/4)) (1/2) (some (3/4)) true
      = .error .budgetExceeded
    ∧ (3 : Nat) ≠ 1 := by
  have hatt : x402FetchAttempt (some ((3 : ℚ)/4)) (1/2) (some (3/4)) true
      = .error .budgetExceeded := by
    norm_num [x402FetchAttempt]
  refine ⟨?_, hatt, by norm_num⟩
  simp only [x402Fetch]
  rw [hatt]

/-- C3 amended: when a payment-required challenge quotes a required cost
above the remaining budget, the attempt fails with the budget-exceeded
error before any payment artifact is constructed; but the outer 3-attempt
backoff loop retries every failure, budget-exceeded included — it does not
distinguish deterministic from transient failures — and rethrows the
budget-exceeded error only after exhausting all 3 attempts. -/
theorem budget_exceeded_fails_fast_but_is_retried
    (expectedPriceUsdc : Option ℚ) (budgetUsdc quoted : ℚ)
    (h : budgetUsdc < expectedPriceUsdc.getD quoted) :
    x402FetchAttempt expectedPriceUsdc budgetUsdc (some quoted) true
      = .error .budgetExceeded
    ∧ ∀ attemptOf : Nat → Except X402Err X402AttemptSuccess,
        (∀ n, attemptOf n = .error .budgetExceeded) →
        x402Fetch attemptOf = (.error .budgetExceeded, 3) := by
  constructor
  · simp [x402FetchAttempt, h]
  · intro attemptOf hall
    simp [x402Fetch, hall 1, hall 2, hall 3]

/-- C3 witness for the amended statement, at a challenge of 0.75 against a
budget of 0.5. -/
theorem budget_exceeded_fails_fast_witness :
    x402FetchAttempt (some ((3 : ℚ)/4)) (1/2) (some (3/4)) true
        = .error .budgetExceeded
    ∧ x402Fetch (fun _ => .error .budgetExceeded)
        = (.error .budgetExceeded, 3) := by
  refine ⟨(budget_exceeded_fails_fast_but_is_retried (some ((3 : ℚ)/4))
    (1/2) (3/4) (by norm_num)).1,
    (budget_exceeded_fails_fast_but_is_retried (some ((3 : ℚ)/4))
    (1/2) (3/4) (by norm_num)).2 (fun _ => .error .budgetExceeded)
    (fun _ => rfl)⟩

/-- C5 counterexample: with an expected signer supplied as the empty string,
JS truthiness skips the signer comparison entirely, so a signature whose
recovered signer (0xAbCd) differs from the supplied expected signer still
verifies with valid = true — the claim that verification succeeds only on a
case-insensitive match fails at this input. -/
theorem empty_expected_signer_accepts_mismatch :
    (verifyAuthorizationSignature (fun _ _ => "0xAbCd")
        { id := "cart_c", intentId := "intent_c", docId := "d", cmdId := "c"
          message := { intentId := "intent_c", docId := "d", cmdId := "c"
                       maxTotalUsdc := "2.00", toolDigest := ""
                       expiresAt := "t" }
          expiresAt := "t", createdAt := "t" }
        "0xsig" (some "")).valid = true
    ∧ jsToLower "0xAbCd" ≠ jsToLower "" := by
  exact ⟨rfl, by decide⟩

/-- C5 amended: when a NON-EMPTY expected signer is supplied, verification
succeeds exactly when the recovered address matches it case-insensitively —
so a wrong-signer signature yields valid = false; an absent expected signer
(and, by JS truthiness, an empty-string one) makes verification succeed
regardless of the recovered address. -/
theorem verify_nonempty_expected_signer (recover : CartMessage → String → String)
    (mandate : AP2CartMandate) (signature expectedSigner : String)
    (hs : expectedSigner ≠ "") :
    ((verifyAuthorizationSignature recover mandate signature
        (some expectedSigner)).valid = true
      ↔ jsToLower (recover mandate.message signature)
          = jsToLower expectedSigner)
    ∧ (verifyAuthorizationSignature recover mandate signature none).valid
        = true := by
  constructor
  · by_cases hm : jsToLower (recover mandate.message signature)
        = jsToLower expectedSigner
    · simp [verifyAuthorizationSignature, jsTruthyStr, hs, hm]
    · simp [verifyAuthorizationSignature, jsTruthyStr, hs, hm]
  · simp [verifyAuthorizationSignature, jsTruthyStr]

/-- C5 witness: a recovered signer differing from the non-empty expected
signer is rejected. -/
theorem verify_wrong_signer_rejected_witness :
    (verifyAuthorizationSignature (fun _ _ => "0xAbCd")
        { id := "cart_c", intentId := "intent_c", docId := "d", cmdId := "c"
          message := { intentId := "intent_c", docId := "d", cmdId := "c"
                       maxTotalUsdc := "2.00", toolDigest := ""
                       expiresAt := "t" }
          expiresAt := "t", createdAt := "t" }
        "0xsig" (some "0xFFFF")).valid ≠ true := by
  intro hvalid
  have h := ((verify_nonempty_expected_signer (fun _ _ => "0xAbCd")
    { id := "cart_c", intentId := "intent_c", docId := "d", cmdId := "c"
      message := { intentId := "intent_c", docId := "d", cmdId := "c"
                   maxTotalUsdc := "2.00", toolDigest := ""
                   expiresAt := "t" }
      expiresAt := "t", createdAt := "t" }
    "0xsig" "0xFFFF" (by decide)).1).mp hvalid
  exact absurd h (by decide)

/-- C8: the cart-mandate expiry is a function of the intent alone — building
the cart at two different wall-clock instants yields the same `expiresAt`,
namely the timestamp of the intents own creation time plus the fixed
5-minute window. -/
theorem cart_expiry_deterministic_from_intent (sha256Hex : String → String)
    (dateParse : String → Option Int) (isoOfMs : Int → String)
    (numToString toFixed2 : ℚ → String) (intent : AP2IntentMandate)
    (now1 now2 createdMs : Int)
    (h : dateParse intent.createdAt = some createdMs) :
    (buildCartMandate sha256Hex dateParse isoOfMs numToString toFixed2 now1
        intent).expiresAt
      = (buildCartMandate sha256Hex dateParse isoOfMs numToString toFixed2 now2
        intent).expiresAt
    ∧ (buildCartMandate sha256Hex dateParse isoOfMs numToString toFixed2 now1
        intent).expiresAt = isoOfMs (createdMs + 5 * 60 * 1000) := by
  constructor <;> simp [buildCartMandate, h]

/-- C8 witness: a concrete intent whose creation time parses to 1000 ms gives
expiry 301000 ms at two different build instants. -/
theorem cart_expiry_deterministic_witness :
    (buildCartMandate (fun s => s) (fun _ => some 1000) (fun i => toString i)
        (fun _ => "p") (fun _ => "t") 7
        { id := "intent_c", docId := "d", cmdId := "c", action := "PAY_VENDOR"
          maxTotalUsdc := 2, toolPlan := [], createdAt := "T" }).expiresAt
      = (buildCartMandate (fun s => s) (fun _ => some 1000) (fun i => toString i)
        (fun _ => "p") (fun _ => "t") 999999
        { id := "intent_c", docId := "d", cmdId := "c", action := "PAY_VENDOR"
          maxTotalUsdc := 2, toolPlan := [], createdAt := "T" }).expiresAt := by
  exact (cart_expiry_deterministic_from_intent (fun s => s)
    (fun _ => some 1000) (fun i => toString i) (fun _ => "p") (fun _ => "t")
    { id := "intent_c", docId := "d", cmdId := "c", action := "PAY_VENDOR"
      maxTotalUsdc := 2, toolPlan := [], createdAt := "T" }
    7 999999 1000 rfl).1

/-- Helper: looking a key up after the keyed in-place update performed by
`updateCommandStatus` sees the updated value for that key. -/
theorem findEntry_map_key_update {α : Type} (key : String × String)
    (f : α → α) :
    ∀ l : List ((String × String) × α),
      findEntry key
          (l.map (fun entry =>
            if entry.1 = key then (entry.1, f entry.2) else entry))
        = (findEntry key l).map f := by
  intro l
  induction l with
  | nil => rfl
  | cons head rest ih =>
    obtain ⟨k, v⟩ := head
    rw [List.map_cons]
    dsimp only
    by_cases hk : k = key
    · rw [if_pos hk]
      show (if k = key then some (f v) else _) = _
      rw [if_pos hk]
      show _ = (if k = key then some v else findEntry key rest).map f
      rw [if_pos hk]
      rfl
    · rw [if_neg hk]
      show (if k = key then some v else _) = _
      rw [if_neg hk]
      show _ = (if k = key then some v else findEntry key rest).map f
      rw [if_neg hk]
      exact ih

/-- C7 counterexample: status transitions are not monotonic — on a command
whose status is already terminal (DONE), `simulateAbort` still runs its
unconditional UPDATE and the status changes again, to ABORTED. -/
theorem simulate_abort_overwrites_terminal_done :
    (getCommand
        { commands := [(("doc", "cmd"),
            { rawCmd := "raw"
              parsed := .payVendor "ACME" 1 "0xA" none none
              status := .DONE, lastError := none })]
          intents := [], receipts := [], auditLines := [] }
        "doc" "cmd").map StoredCommand.status = some .DONE
    ∧ (getCommand
        (simulateAbort
          { commands := [(("doc", "cmd"),
              { rawCmd := "raw"
                parsed := .payVendor "ACME" 1 "0xA" none none
                status := .DONE, lastError := none })]
            intents := [], receipts := [], auditLines := [] }
          "doc" "cmd" "MANUAL_FAILURE_SIMULATION")
        "doc" "cmd").map StoredCommand.status = some .ABORTED
    ∧ CommandStatus.DONE ≠ CommandStatus.ABORTED := by
  refine ⟨rfl, rfl, by simp⟩

/-- C7 amended: the status-update path has no terminal-state guard —
`updateCommandStatus` is an unconditional UPDATE, so `simulateAbort` sets
any existing command, whatever its current status (terminal DONE, ABORTED
or FAILED included), to ABORTED with the reason as its lastError; likewise
encrypted-job completion sets DONE unconditionally. Monotonicity of
DONE/ABORTED/FAILED is therefore not enforced by the system. -/
theorem simulate_abort_sets_aborted_unconditionally (st : RepoState)
    (docId cmdId reason : String) (stored : StoredCommand)
    (h : getCommand st docId cmdId = some stored) :
    getCommand (simulateAbort st docId cmdId reason) docId cmdId
      = some { stored with status := .ABORTED, lastError := some reason } := by
  unfold getCommand at h
  have hupd := findEntry_map_key_update (docId, cmdId)
    (fun c : StoredCommand =>
      { c with status := .ABORTED, lastError := some reason }) st.commands
  rw [h] at hupd
  show findEntry (docId, cmdId) _ = _
  simpa [simulateAbort, updateCommandStatus, addAp2Receipt,
    appendAuditLine] using hupd

/-- C7 witness: aborting an EXECUTING command lands it in ABORTED with the
reason recorded. -/
theorem simulate_abort_unconditional_witness :
    getCommand
        (simulateAbort
          { commands := [(("d", "c"),
              { rawCmd := "r"
                parsed := .treasurySwap 25 "WETH" 50 30
                status := .EXECUTING, lastError := none })]
            intents := [], receipts := [], auditLines := [] }
          "d" "c" "R")
        "d" "c"
      = some { rawCmd := "r"
               parsed := .treasurySwap 25 "WETH" 50 30
               status := .ABORTED, lastError := some "R" } := by
  exact simulate_abort_sets_aborted_unconditionally
    { commands := [(("d", "c"),
        { rawCmd := "r"
          parsed := .treasurySwap 25 "WETH" 50 30
          status := .EXECUTING, lastError := none })]
      intents := [], receipts := [], auditLines := [] }
    "d" "c" "R"
    { rawCmd := "r"
      parsed := .treasurySwap 25 "WETH" 50 30
      status := .EXECUTING, lastError := none }
    rfl

/-- C6: the command id is a deterministic function of the canonical textual
form — two parses with equal canonical form hash to the same `commandId`
whatever the hash primitive — and ingesting a line whose `commandId`
already exists in the scope is a no-op on the whole store: no command,
intent, receipt or audit write happens. -/
theorem cmdId_deterministic_reingest_noop (config : AppConfig)
    (deps : IngestDeps) (docId raw : String) (parsed : ParsedCommand)
    (st : RepoState) :
    (∀ p1 p2 : ParsedCommand,
        buildCanonicalCommand deps.numToString p1
          = buildCanonicalCommand deps.numToString p2 →
        buildCmdIdFromParsed deps.sha256Hex deps.numToString p1
          = buildCmdIdFromParsed deps.sha256Hex deps.numToString p2)
    ∧ ((getCommand st docId
          (buildCmdIdFromParsed deps.sha256Hex deps.numToString parsed)).isSome
          = true →
        ingestParsedLine config deps docId raw parsed st = st) := by
  constructor
  · intro p1 p2 h
    unfold buildCmdIdFromParsed
    rw [h]
  · intro h
    unfold ingestParsedLine
    cases hg : getCommand st docId
        (buildCmdIdFromParsed deps.sha256Hex deps.numToString parsed) with
    | some stored => simp [hg]
    | none => rw [hg] at h; simp at h

/-- C6 witness: with a concrete hash primitive, equal canonical forms give
equal ids, and re-ingesting a line whose id is already stored changes
nothing. -/
theorem cmdId_reingest_noop_witness :
    ingestParsedLine defaultConfig
        { sha256Hex := fun _ => "h", numToString := fun _ => "0"
          serializeCommand := fun _ => "J", nowIsoStr := "T" }
        "doc" "raw" (.payVendor "A" 1 "0xB" none none)
        { commands := [(("doc", "cmd_h"),
            { rawCmd := "raw"
              parsed := .payVendor "A" 1 "0xB" none none
              status := .DONE, lastError := none })]
          intents := [], receipts := [], auditLines := [] }
      = { commands := [(("doc", "cmd_h"),
            { rawCmd := "raw"
              parsed := .payVendor "A" 1 "0xB" none none
              status := .DONE, lastError := none })]
          intents := [], receipts := [], auditLines := [] } := by
  exact (cmdId_deterministic_reingest_noop defaultConfig
    { sha256Hex := fun _ => "h", numToString := fun _ => "0"
      serializeCommand := fun _ => "J", nowIsoStr := "T" }
    "doc" "raw" (.payVendor "A" 1 "0xB" none none)
    { commands := [(("doc", "cmd_h"),
        { rawCmd := "raw"
          parsed := .payVendor "A" 1 "0xB" none none
          status := .DONE, lastError := none })]
      intents := [], receipts := [], auditLines := [] }).2 rfl

/-- C9: one queue tick advances an encrypted job by at most one phase.
Before the unlock time the job is returned untouched and no submission is
attempted; a PENDING job (whose invariant is that no transaction reference
is recorded yet) can move only to SUBMITTED, recording the reference
returned by the submission capability, and never reaches DECRYPTED in the
same tick; a SUBMITTED job can move only to DECRYPTED; and a job can end
the tick DECRYPTED only if it entered it already SUBMITTED with a recorded
reference. -/
theorem encrypted_job_advances_one_phase (dateParse : String → Option Int)
    (now : Int) (submitTxHash decryptedData : String)
    (job : EncryptedJobState)
    (hdom : job.status = .PENDING ∨ job.status = .SUBMITTED)
    (hinv : job.status = .PENDING → job.txHash = none)
    (hsub : submitTxHash ≠ "") :
    (∀ unlockMs, dateParse job.unlockAt = some unlockMs → now < unlockMs →
      advanceEncryptedJob dateParse now submitTxHash decryptedData job
        = (job, false))
    ∧ (job.status = .PENDING →
        (advanceEncryptedJob dateParse now submitTxHash decryptedData
            job).1.status = .PENDING
        ∨ ((advanceEncryptedJob dateParse now submitTxHash decryptedData
              job).1.status = .SUBMITTED
           ∧ (advanceEncryptedJob dateParse now submitTxHash decryptedData
              job).1.txHash = some submitTxHash
           ∧ (advanceEncryptedJob dateParse now submitTxHash decryptedData
              job).1.decryptedJson = job.decryptedJson))
    ∧ (job.status = .SUBMITTED →
        (advanceEncryptedJob dateParse now submitTxHash decryptedData
            job).1.status = .SUBMITTED
        ∨ (advanceEncryptedJob dateParse now submitTxHash decryptedData
            job).1.status = .DECRYPTED)
    ∧ ((advanceEncryptedJob dateParse now submitTxHash decryptedData
          job).1.status = .DECRYPTED →
        job.status = .SUBMITTED ∧ jsTruthyStr job.txHash = true) := by
  refine ⟨?_, ?_, ?_, ?_⟩
  · intro unlockMs hm hlt
    simp [advanceEncryptedJob, processJob, hm, hlt]
  · intro hpend
    have htx : job.txHash = none := hinv hpend
    cases hm : dateParse job.unlockAt with
    | none => left; simp [advanceEncryptedJob, processJob, hm, hpend]
    | some unlockMs =>
      by_cases hlt : now < unlockMs
      · left; simp [advanceEncryptedJob, processJob, hm, hlt, hpend]
      · right
        refine ⟨?_, ?_, ?_⟩ <;>
          simp [advanceEncryptedJob, processJob, hm, hlt, htx, jsTruthyStr, hsub]
  · intro hsubm
    cases hm : dateParse job.unlockAt with
    | none => left; simp [advanceEncryptedJob, processJob, hm, hsubm]
    | some unlockMs =>
      by_cases hlt : now < unlockMs
      · left; simp [advanceEncryptedJob, processJob, hm, hlt, hsubm]
      · cases htx : job.txHash with
        | none =>
          left
          simp [advanceEncryptedJob, processJob, hm, hlt, htx, jsTruthyStr, hsub]
        | some h0 =>
          by_cases h0e : h0 = ""
          · left
            simp [advanceEncryptedJob, processJob, hm, hlt, htx, jsTruthyStr,
              h0e, hsub]
          · right
            simp [advanceEncryptedJob, processJob, hm, hlt, htx, jsTruthyStr,
              h0e]
  · intro hdec
    cases hm : dateParse job.unlockAt with
    | none =>
      exfalso
      rw [show advanceEncryptedJob dateParse now submitTxHash decryptedData job
          = (job, false) by simp [advanceEncryptedJob, processJob, hm]] at hdec
      rcases hdom with hs | hs <;> rw [hs] at hdec <;> simp at hdec
    | some unlockMs =>
      by_cases hlt : now < unlockMs
      · exfalso
        rw [show advanceEncryptedJob dateParse now submitTxHash decryptedData
            job = (job, false) by
          simp [advanceEncryptedJob, processJob, hm, hlt]] at hdec
        rcases hdom with hs | hs <;> rw [hs] at hdec <;> simp at hdec
      · by_cases htt : jsTruthyStr job.txHash = true
        · refine ⟨?_, htt⟩
          rcases hdom with hs | hs
          · exfalso
            have := hinv hs
            rw [this] at htt
            simp [jsTruthyStr] at htt
          · exact hs
        · exfalso
          have hff : jsTruthyStr job.txHash = false := by
            cases hb : jsTruthyStr job.txHash
            · rfl
            · exact absurd hb htt
          have hproc : processJob dateParse now submitTxHash decryptedData job
              = { submitted := true, txHash := some submitTxHash
                  decrypted := none } := by
            simp [processJob, hm, hlt, hff]
          rw [show (advanceEncryptedJob dateParse now submitTxHash
              decryptedData job).1
              = { job with status := .SUBMITTED, txHash := some submitTxHash }
            by simp [advanceEncryptedJob, hproc, jsTruthyStr, hsub]] at hdec
          simp at hdec

/-- C9 witness: a pending job whose unlock time (100) is still ahead of the
clock (50) is left untouched with no submission attempted. -/
theorem encrypted_job_one_phase_witness :
    advanceEncryptedJob (fun _ => some 100) 50 "0xA" "payload"
        { status := .PENDING, unlockAt := "u", txHash := none
          decryptedJson := none }
      = ({ status := .PENDING, unlockAt := "u", txHash := none
           decryptedJson := none }, false) := by
  exact (encrypted_job_advances_one_phase (fun _ => some 100) 50 "0xA"
    "payload"
    { status := .PENDING, unlockAt := "u", txHash := none
      decryptedJson := none }
    (Or.inl rfl) (fun _ => rfl) (by simp)).1 100 rfl (by norm_num)

end Zoro
